import Mathlib

/-!
# Verification of the goderive `compare` generator (src/compare.go)

Two levels of embedding:

1. *Semantics of the generated code*: the code templates that
   `(*compare).genFuncFor` emits for each type kind (pointer, basic,
   struct, slice, array, map) are transcribed as Lean functions over a
   model of Go values (`Option` for nilable kinds, `List` for
   slices/arrays, association lists for maps).  Each function mirrors the
   emitted control flow line by line.

2. *The generator itself*: `newCompare`, `Generate`, `genFuncFor` and
   `field` are embedded as Lean functions over an inductive model of
   `go/types` types, producing the emitted lines and errors.  The
   `TypesMap` registry and the driver are external to src/compare.go and
   are modelled from the spec where needed.
-/

namespace GoDerive

variable {α : Type} {β : Type} {σ : Type}

/-! ## Semantics of the generated comparator templates -/

/-- Semantics of the code emitted for basic ordered kinds
(src/compare.go lines 130-144):
`if this != that { if this < that { return -1 } else { return 1 } } return 0`. -/
def intCompare (a b : Int) : Int :=
  if a ≠ b then (if a < b then -1 else 1) else 0

/-- Semantics of the code emitted for `bool` (src/compare.go lines 118-129):
`if this == that { return 0 }; if that { return -1 }; return 1`. -/
def boolCompare (a b : Bool) : Int :=
  if a = b then 0 else if b then -1 else 1

/-- Semantics of Go's `strings.Compare` / `bytes.Compare` (lexicographic
byte-wise three-way comparison), to which the generated code delegates for
strings (src/compare.go line 115) and byte slices (line 314).  A Go string
is modelled as its byte sequence. -/
def stringsCompare : List Nat → List Nat → Int
  | [], [] => 0
  | [], _ :: _ => -1
  | _ :: _, [] => 1
  | a :: as, b :: bs =>
      if a < b then -1 else if b < a then 1 else stringsCompare as bs

/-- Semantics of the code emitted for a pointer type
(src/compare.go lines 94-111): nil checks, then
`return cmpElem(*this, *that)` where `cmpElem` is the element type's
generated comparator.  `none` models a nil pointer. -/
def comparePtr (cmpElem : α → α → Int) : Option α → Option α → Int
  | none, none => 0
  | none, some _ => -1
  | some _, none => 1
  | some x, some y => cmpElem x y

/-- `firstNonZero [c1, ..., cn]` is the value of the emitted cascade
`if c := c1; c != 0 { return c } ... return 0`. -/
def firstNonZero : List Int → Int
  | [] => 0
  | c :: rest => if c ≠ 0 then c else firstNonZero rest

/-- Semantics of the code emitted for a struct type
(src/compare.go lines 146-164): for each field in declaration order,
`if c := fieldCompare(this.F, that.F); c != 0 { return c }`, then
`return 0`.  A field is modelled by the comparator obtained by composing
the field projection with the field type's comparison. -/
def compareStruct (fieldCmps : List (σ → σ → Int)) (a b : σ) : Int :=
  firstNonZero (fieldCmps.map (fun c => c a b))

/-- Semantics of the emitted element loop
`for i := 0; i < len(this); i++ { if c := cmp(this[i], that[i]); c != 0 { return c } }`
(src/compare.go lines 191-203 and 216-228), reached only when both lists
have equal length. -/
def compareLoop (cmp : α → α → Int) : List α → List α → Int
  | x :: xs, y :: ys => if cmp x y ≠ 0 then cmp x y else compareLoop cmp xs ys
  | _, _ => 0

/-- Semantics of the code emitted for a slice type
(src/compare.go lines 165-204): nil checks, length check
(`if len(this) != len(that) { if len(this) < len(that) { return -1 } return 1 }`),
then the element loop.  `none` models a nil slice. -/
def compareSlice (cmp : α → α → Int) : Option (List α) → Option (List α) → Int
  | none, none => 0
  | none, some _ => -1
  | some _, none => 1
  | some xs, some ys =>
      if xs.length ≠ ys.length then
        (if xs.length < ys.length then -1 else 1)
      else compareLoop cmp xs ys

/-- Semantics of the code emitted for an array type
(src/compare.go lines 205-229): the same length check and element loop as
for slices, without nil checks (arrays have no nil state). -/
def compareArray (cmp : α → α → Int) (xs ys : List α) : Int :=
  if xs.length ≠ ys.length then
    (if xs.length < ys.length then -1 else 1)
  else compareLoop cmp xs ys

/-- Semantics of Go map indexing `m[k]`: the value of the first pair whose
key matches, or the zero value `z` of the value type when the key is
absent.  A Go map is modelled as an association list with pairwise
distinct keys. -/
def mapIndex (z : β) : List (Int × β) → Int → β
  | [], _ => z
  | (k, v) :: rest, key => if k = key then v else mapIndex z rest key

/-- Modelled from the spec: the companion sorted-keys operation
(src/compare.go lines 256-257 call `this.sortedKeys.GetFuncName(typ)`,
whose generated body is not part of src/compare.go).  Per spec section
4.2 it returns "a deterministic sorted key sequence" for the map; keys
are modelled as `Int` and sorted ascending. -/
def sortedKeys (m : List (Int × β)) : List Int :=
  List.insertionSort (· ≤ ·) (m.map Prod.fst)

/-- Semantics of the emitted lock-step walk over the two sorted key
sequences (src/compare.go lines 258-288):
`for i, thiskey := range thiskeys { thatkey := thatkeys[i];
if thiskey == thatkey { compare values } else { compare keys } }`,
reached only when both key sequences have equal length. -/
def mapWalk (cmpKey : Int → Int → Int) (cmpVal : β → β → Int) (z : β)
    (m1 m2 : List (Int × β)) : List Int → List Int → Int
  | k1 :: ks1, k2 :: ks2 =>
      if k1 = k2 then
        (if cmpVal (mapIndex z m1 k1) (mapIndex z m2 k2) ≠ 0 then
          cmpVal (mapIndex z m1 k1) (mapIndex z m2 k2)
        else mapWalk cmpKey cmpVal z m1 m2 ks1 ks2)
      else
        (if cmpKey k1 k2 ≠ 0 then cmpKey k1 k2
        else mapWalk cmpKey cmpVal z m1 m2 ks1 ks2)
  | _, _ => 0

/-- Semantics of the code emitted for a map type
(src/compare.go lines 230-288): nil checks, length check, then the
lock-step walk over both sorted key sequences.  `none` models a nil
map; `z` is the zero value of the value type. -/
def compareMap (cmpKey : Int → Int → Int) (cmpVal : β → β → Int) (z : β) :
    Option (List (Int × β)) → Option (List (Int × β)) → Int
  | none, none => 0
  | none, some _ => -1
  | some _, none => 1
  | some m1, some m2 =>
      if m1.length ≠ m2.length then
        (if m1.length < m2.length then -1 else 1)
      else mapWalk cmpKey cmpVal z m1 m2 (sortedKeys m1) (sortedKeys m2)

/-! ## The generator: model of `go/types` and src/compare.go -/

/-- The basic kinds appearing in src/compare.go's dispatch
(`types.String`, `types.Bool`, `types.Byte`, `types.Complex128`, with
`intK` standing for the ordinary ordered numeric kinds handled by the
`default` arm of the basic switch). -/
inductive GoBasicKind where
  | stringK
  | boolK
  | intK
  | byteK
  | complex128K

mutual
/-- Model of `go/types` types as dispatched on by src/compare.go: a
closed variant of the structural kinds.  `named` carries the type's name
and whether the type has its own `Compare` method (per the spec's data
model `Named(underlying Type, has-operation-method?)`); a named type's
underlying type is looked up in an environment.  `chanT`, `signature`,
`tuple` and `iface` are the kinds the dispatcher cannot handle. -/
inductive GoType where
  | basic (k : GoBasicKind)
  | ptr (elem : GoType)
  | slice (elem : GoType)
  | array (n : Nat) (elem : GoType)
  | mapT (key : GoType) (elem : GoType)
  | structT (fields : GoFields)
  | named (name : String) (hasCompareMethod : Bool)
  | chanT (elem : GoType)
  | signature
  | tuple
  | iface
inductive GoFields where
  | nil
  | cons (name : String) (t : GoType) (rest : GoFields)
end

deriving instance DecidableEq for GoBasicKind
deriving instance DecidableEq for GoType
deriving instance DecidableEq for GoFields

mutual
/-- Rendering of a type to its textual name, modelling the external
Type Name Renderer (`types.TypeString` relative to the package, used for
the function signature at src/compare.go line 89 and for the `%#v` /
`%s` renderings in error messages). -/
def typeName : GoType → String
  | .basic .stringK => "string"
  | .basic .boolK => "bool"
  | .basic .intK => "int"
  | .basic .byteK => "byte"
  | .basic .complex128K => "complex128"
  | .ptr t => "*" ++ typeName t
  | .slice t => "[]" ++ typeName t
  | .array n t => "[" ++ toString n ++ "]" ++ typeName t
  | .mapT k v => "map[" ++ typeName k ++ "]" ++ typeName v
  | .structT fs => "struct \x7b " ++ fieldsName fs ++ " \x7d"
  | .named n _ => n
  | .chanT t => "chan " ++ typeName t
  | .signature => "func()"
  | .tuple => "tuple"
  | .iface => "interface \x7b\x7d"
/-- Rendering of a struct's field list, companion of `typeName`. -/
def fieldsName : GoFields → String
  | .nil => ""
  | .cons n t rest => n ++ " " ++ typeName t ++ "; " ++ fieldsName rest
end

/-- Lookup of a named type's definition in the type environment. -/
def lookupEnv : List (String × GoType) → String → Option GoType
  | [], _ => none
  | (n, t) :: rest, key => if n = key then some t else lookupEnv rest key

/-- Model of `typ.Underlying()` (the switch scrutinee at src/compare.go
line 93): a named type resolves to its definition in the environment,
every other type is its own underlying type. -/
def underlying (env : List (String × GoType)) : GoType → GoType
  | .named n h =>
      match lookupEnv env n with
      | some t => t
      | none => .named n h
  | t => t

/-- Generation state of a registry entry (spec section 3: Requested /
Generating). -/
inductive EntryTag where
  | requested
  | generating

deriving instance DecidableEq for EntryTag

/-- One registry entry: a type, its assigned function name, and its
generation state. -/
structure Entry where
  typ : GoType
  name : String
  tag : EntryTag

/-- Modelled from the spec: the `TypesMap` registry that src/compare.go
embeds (its implementation is not part of src/compare.go).  Spec section
4.1: the per-operation ledger of type to generated function name with
Requested/Generating state, keyed by the type's canonical name. -/
structure Registry where
  pfx : String
  entries : List Entry

/-- Find the entry for a type (entries are keyed by canonical type
name). -/
def lookupType : List Entry → GoType → Option Entry
  | [], _ => none
  | e :: rest, t => if typeName e.typ = typeName t then some e else lookupType rest t

/-- Modelled from the spec: `requestName` / `TypesMap.GetFuncName`
(spec section 4.1): return the existing function name if the type was
seen before; otherwise allocate one derived from the configured name
start and the type's canonical name and record it in state Requested. -/
def getFuncName (r : Registry) (t : GoType) : Registry × String :=
  match lookupType r.entries t with
  | some e => (r, e.name)
  | none =>
      let n := r.pfx ++ "_" ++ typeName t
      ({ r with entries := r.entries ++ [⟨t, n, .requested⟩] }, n)

/-- Modelled from the spec: `TypesMap.SetFuncName` (called at
src/compare.go line 60): record the requested name for a type; a type
maps to at most one function name (spec section 3), so a conflicting
second name is an error. -/
def setFuncName (r : Registry) (t : GoType) (name : String) : Except String Registry :=
  match lookupType r.entries t with
  | some e =>
      if e.name = name then .ok r
      else .error ("conflicting function names " ++ e.name ++ " and " ++ name)
  | none => .ok { r with entries := r.entries ++ [⟨t, name, .requested⟩] }

/-- Modelled from the spec: `TypesMap.Generating` (called at
src/compare.go line 88): transition the type's entry out of the pending
(Requested) state. -/
def markGenerating (r : Registry) (t : GoType) : Registry :=
  { r with
    entries := r.entries.map (fun e =>
      if typeName e.typ = typeName t then { e with tag := .generating } else e) }

/-- Modelled from the spec: `TypesMap.ToGenerate` (used at
src/compare.go line 74): the ordered list of types still pending
generation. -/
def toGenerate (r : Registry) : List GoType :=
  (r.entries.filter (fun e => e.tag = .requested)).map (·.typ)

/-- Modelled from the spec: the bound sorted-keys operation dependency
(`this.sortedKeys.GetFuncName(typ)` at src/compare.go lines 256-257; the
sortedKeys plugin's registry is not part of src/compare.go): the name of
the companion sorted-keys function for a map type. -/
def sortedKeysFuncName (typ : GoType) : String :=
  "deriveSortedKeys_" ++ typeName typ

/-- Embedding of `(*compare).field` (src/compare.go lines 297-322): the
per-field dispatch returning the comparison expression for one field,
or an error for an unsupported field kind.  String fields inline
`strings.Compare`, byte-slice fields inline `bytes.Compare`,
pointer-to-named and named fields delegate to the type's own `Compare`
method, and the remaining supported kinds delegate to the generated
function obtained (and registered) via `getFuncName`. -/
def field (r : Registry) (thisField thatField : String) :
    GoType → Except String (Registry × String)
  | .basic .stringK =>
      .ok (r, "strings.Compare(" ++ thisField ++ ", " ++ thatField ++ ")")
  | .basic k =>
      let (r1, n) := getFuncName r (.basic k)
      .ok (r1, n ++ "(" ++ thisField ++ ", " ++ thatField ++ ")")
  | .ptr (.named _ _) => .ok (r, thisField ++ ".Compare(" ++ thatField ++ ")")
  | .ptr elem =>
      let (r1, n) := getFuncName r (.ptr elem)
      .ok (r1, n ++ "(" ++ thisField ++ ", " ++ thatField ++ ")")
  | .array n elem =>
      let (r1, fn) := getFuncName r (.array n elem)
      .ok (r1, fn ++ "(" ++ thisField ++ ", " ++ thatField ++ ")")
  | .mapT k v =>
      let (r1, fn) := getFuncName r (.mapT k v)
      .ok (r1, fn ++ "(" ++ thisField ++ ", " ++ thatField ++ ")")
  | .slice (.basic .byteK) =>
      .ok (r, "bytes.Compare(" ++ thisField ++ ", " ++ thatField ++ ")")
  | .slice elem =>
      let (r1, fn) := getFuncName r (.slice elem)
      .ok (r1, fn ++ "(" ++ thisField ++ ", " ++ thatField ++ ")")
  | .named _ _ => .ok (r, thisField ++ ".Compare(&" ++ thatField ++ ")")
  | ft => .error ("unsupported field type " ++ typeName ft)

/-- Generator state: the registry plus the lines accumulated in the
printer so far (indentation, handled by `p.In`/`p.Out`, is
presentational only and is not modelled). -/
structure GenM where
  r : Registry
  out : List String

/-- The nil-check lines emitted for pointer, slice and map kinds
(src/compare.go lines 94-109, 166-180, 231-245). -/
def nilCheckLines : List String :=
  ["if this == nil \x7b", "if that == nil \x7b", "return 0", "\x7d", "return -1", "\x7d",
   "if that == nil \x7b", "return 1", "\x7d"]

/-- The length-check lines emitted for slice, array and map kinds
(src/compare.go lines 181-190, 206-215, 246-255). -/
def lenCheckLines : List String :=
  ["if len(this) != len(that) \x7b", "if len(this) < len(that) \x7b", "return -1", "\x7d",
   "return 1", "\x7d"]

/-- The body lines emitted for a basic kind (src/compare.go lines
112-145). -/
def basicLines : GoBasicKind → List String
  | .stringK => ["return strings.Compare(this, that)"]
  | .complex128K => ["return 0 //TODO"]
  | .boolK =>
      ["if this == that \x7b", "return 0", "\x7d", "if that \x7b", "return -1", "\x7d",
       "return 1"]
  | _ =>
      ["if this != that \x7b", "if this < that \x7b", "return -1", "\x7d else \x7b",
       "return 1", "\x7d", "\x7d", "return 0"]

/-- Embedding of the struct-field loop of `genFuncFor`
(src/compare.go lines 148-163): for each field in declaration order,
compute its comparison expression via `field` and emit the
first-non-zero-wins block; a field error stops the loop, keeping the
lines already emitted. -/
def genStructFields (r : Registry) : GoFields → Registry × List String × Option String
  | .nil => (r, [], none)
  | .cons name ftype rest =>
      match field r ("this." ++ name) ("that." ++ name) ftype with
      | .error e => (r, [], some e)
      | .ok (r1, cs) =>
          match genStructFields r1 rest with
          | (r2, lines, err) =>
              (r2, ("if c := " ++ cs ++ "; c != 0 \x7b") :: "return c" :: "\x7d" :: lines,
               err)

/-- Embedding of `(*compare).genFuncFor` (src/compare.go lines 86-295):
mark the type Generating, emit the function header, then dispatch on the
type's underlying kind, emitting the corresponding template and
registering constituent types via `getFuncName` / `field`.  An
unsupported kind, or a field error, aborts with the error and keeps the
lines emitted so far in the printer. -/
def genFuncFor (env : List (String × GoType)) (s : GenM) (typ : GoType) :
    GenM × Option String :=
  let r0 := markGenerating s.r typ
  let (r1, fname) := getFuncName r0 typ
  let out := s.out ++ ["", "func " ++ fname ++ "(this, that " ++ typeName typ ++ ") int \x7b"]
  match underlying env typ with
  | .ptr elem =>
      let (r2, refName) := getFuncName r1 elem
      (⟨r2, out ++ nilCheckLines ++ ["return " ++ refName ++ "(*this, *that)", "\x7d"]⟩,
       none)
  | .basic k => (⟨r1, out ++ basicLines k ++ ["\x7d"]⟩, none)
  | .structT fs =>
      match genStructFields r1 fs with
      | (r2, lines, none) => (⟨r2, out ++ lines ++ ["return 0", "\x7d"]⟩, none)
      | (r2, lines, some e) => (⟨r2, out ++ lines⟩, some e)
  | .slice elem =>
      let out2 := out ++ nilCheckLines ++ lenCheckLines ++
        ["for i := 0; i < len(this); i++ \x7b"]
      match field r1 "this[i]" "that[i]" elem with
      | .error e => (⟨r1, out2⟩, some e)
      | .ok (r2, cs) =>
          (⟨r2, out2 ++ ["if c := " ++ cs ++ "; c != 0 \x7b", "return c", "\x7d", "\x7d",
            "return 0", "\x7d"]⟩, none)
  | .array _ elem =>
      let out2 := out ++ lenCheckLines ++ ["for i := 0; i < len(this); i++ \x7b"]
      match field r1 "this[i]" "that[i]" elem with
      | .error e => (⟨r1, out2⟩, some e)
      | .ok (r2, cs) =>
          (⟨r2, out2 ++ ["if c := " ++ cs ++ "; c != 0 \x7b", "return c", "\x7d", "\x7d",
            "return 0", "\x7d"]⟩, none)
  | .mapT key elem =>
      let out2 := out ++ nilCheckLines ++ lenCheckLines ++
        ["thiskeys := " ++ sortedKeysFuncName typ ++ "(this)",
         "thatkeys := " ++ sortedKeysFuncName typ ++ "(that)",
         "for i, thiskey := range thiskeys \x7b",
         "thatkey := thatkeys[i]",
         "if thiskey == thatkey \x7b"]
      match field r1 "this[thiskey]" "that[thatkey]" elem with
      | .error e => (⟨r1, out2⟩, some e)
      | .ok (r2, cs1) =>
          let out3 := out2 ++ ["if c := " ++ cs1 ++ "; c != 0 \x7b", "return c", "\x7d",
            "\x7d else \x7b"]
          match field r2 "thiskey" "thatkey" key with
          | .error e => (⟨r2, out3⟩, some e)
          | .ok (r3, cs2) =>
              (⟨r3, out3 ++ ["if c := " ++ cs2 ++ "; c != 0 \x7b", "return c", "\x7d", "\x7d",
                "\x7d", "return 0", "\x7d"]⟩, none)
  | _ => (⟨r1, out⟩, some ("unsupported compare type: " ++ typeName typ))

/-- The loop body of `(*compare).Generate` (src/compare.go lines 74-78):
generate each listed type in order, stopping at the first error. -/
def generateTypes (env : List (String × GoType)) (s : GenM) :
    List GoType → GenM × Option String
  | [] => (s, none)
  | t :: ts =>
      match genFuncFor env s t with
      | (s1, none) => generateTypes env s1 ts
      | (s1, some e) => (s1, some e)

/-- Embedding of `(*compare).Generate` (src/compare.go lines 73-80):
generate every type pending at entry. -/
def Generate (env : List (String × GoType)) (s : GenM) : GenM × Option String :=
  generateTypes env s (toGenerate s.r)

/-- A call site as seen by `newCompare`: the callee (`none` when the
callee expression is not a simple identifier) and the static types of
the arguments. -/
structure CallExpr where
  fn : Option String
  args : List GoType

/-- Semantics of Go's `strings.HasPrefix` (src/compare.go line 47),
decided on the character sequences of the two strings. -/
def hasPrefixStr (p s : String) : Bool := p.data.isPrefixOf s.data

/-- The loop body of `newCompare` (src/compare.go lines 42-63): skip
calls whose callee is not an identifier or does not start with the
configured name start; validate arity (exactly two arguments) and type
identity, failing with an error citing the callee name; register the
requested name for the argument type. -/
def newCompareLoop (pfx : String) (r : Registry) :
    List CallExpr → Except String Registry
  | [] => .ok r
  | c :: cs =>
      match c.fn with
      | none => newCompareLoop pfx r cs
      | some name =>
          if hasPrefixStr pfx name then
            match c.args with
            | [t0, t1] =>
                if t0 = t1 then
                  match setFuncName r t0 name with
                  | .ok r1 => newCompareLoop pfx r1 cs
                  | .error e => .error e
                else
                  .error (name ++ " has two arguments, but they are of different types "
                    ++ typeName t0 ++ " != " ++ typeName t1 ++ "\n")
            | _ => .error (name ++ " does not have two arguments\n")
          else newCompareLoop pfx r cs

/-- Embedding of `newCompare` (src/compare.go lines 38-71): validate and
register every call site starting from an empty registry. -/
def newCompare (pfx : String) (calls : List CallExpr) : Except String Registry :=
  newCompareLoop pfx ⟨pfx, []⟩ calls

/-- Modelled from the spec: the driver loop (spec section 2: "loop until
the Registry reports no pending types"; the driver is not part of
src/compare.go).  Repeatedly invokes `Generate` until no types are
pending; `fuel` bounds the number of rounds, `none` meaning the bound
was hit. -/
def driverLoop (env : List (String × GoType)) :
    Nat → GenM → Option (GenM × Option String)
  | 0, _ => none
  | fuel + 1, s =>
      if toGenerate s.r = [] then some (s, none)
      else
        match Generate env s with
        | (s1, none) => driverLoop env fuel s1
        | (s1, some e) => some (s1, some e)

/-- Modelled from the spec: one end-to-end generation run with
all-or-nothing output (spec sections 5 and 7: any construction-time or
generation-time error aborts the run and no output file is produced; the
driver and output sink are not part of src/compare.go).  Result:
`none` when the fuel bound was hit, `some none` when the run failed (no
output emitted), `some (some lines)` when the run succeeded with the
full emitted text. -/
def runCompare (env : List (String × GoType)) (fuel : Nat) (pfx : String)
    (calls : List CallExpr) : Option (Option (List String)) :=
  match newCompare pfx calls with
  | .error _ => some none
  | .ok r =>
      match driverLoop env fuel ⟨r, []⟩ with
      | none => none
      | some (_, some _) => some none
      | some (s, none) => some (some s.out)

deriving instance DecidableEq for Entry
deriving instance DecidableEq for Registry
deriving instance DecidableEq for CallExpr
deriving instance DecidableEq for GenM

/-- The self-referential linked-list node type of spec scenario 5:
`type Node struct { Value int; Next *Node }`. -/
def nodeEnv : List (String × GoType) :=
  [("Node", .structT (.cons "Value" (.basic .intK)
      (.cons "Next" (.ptr (.named "Node" false)) .nil)))]

/-- The one call site requesting a comparator for the `Node` type. -/
def nodeCalls : List CallExpr :=
  [⟨some "deriveCompareNode", [.named "Node" false, .named "Node" false]⟩]

/-- The full text emitted by the generation run on the linked-list
example (two function bodies: one for `Node`, one for `int`). -/
def nodeLines : List String :=
  ["", "func deriveCompareNode(this, that Node) int \x7b",
   "if c := deriveCompare_int(this.Value, that.Value); c != 0 \x7b",
   "return c", "\x7d",
   "if c := this.Next.Compare(that.Next); c != 0 \x7b",
   "return c", "\x7d",
   "return 0", "\x7d",
   "", "func deriveCompare_int(this, that int) int \x7b",
   "if this != that \x7b", "if this < that \x7b", "return -1", "\x7d else \x7b",
   "return 1", "\x7d", "\x7d", "return 0", "\x7d"]

/-! ## Helper lemmas about the template semantics -/

/-- The emitted element loop returns the first non-zero element
comparison: it equals `firstNonZero` of the pointwise comparisons. -/
theorem compareLoop_eq_firstNonZero (cmp : α → α → Int) :
    ∀ xs ys : List α, compareLoop cmp xs ys = firstNonZero (List.zipWith cmp xs ys)
  | [], [] => rfl
  | [], _ :: _ => rfl
  | _ :: _, [] => rfl
  | x :: xs, y :: ys => by
      simp only [compareLoop, List.zipWith, firstNonZero]
      rw [compareLoop_eq_firstNonZero cmp xs ys]

/-- `strings.Compare` of equal byte sequences is zero. -/
theorem stringsCompare_self : ∀ v, stringsCompare v v = 0
  | [] => rfl
  | a :: as => by simp [stringsCompare, stringsCompare_self as]

/-- Indexing a map outside its key set yields the zero value. -/
theorem mapIndex_eq_default (z : β) {k : Int} :
    ∀ {m : List (Int × β)}, k ∉ m.map Prod.fst → mapIndex z m k = z := by
  intro m
  induction m with
  | nil => intro _; rfl
  | cons p rest ih =>
      intro h
      obtain ⟨k', v'⟩ := p
      simp only [List.map_cons, List.mem_cons] at h
      push_neg at h
      have hk' : ¬ k' = k := fun he => h.1 he.symm
      simp [mapIndex, hk', ih h.2]

/-- Indexing a map with distinct keys at a present key yields the
associated value. -/
theorem mapIndex_eq_of_mem (z : β) {k : Int} {v : β} :
    ∀ {m : List (Int × β)}, (k, v) ∈ m → (m.map Prod.fst).Nodup →
      mapIndex z m k = v := by
  intro m
  induction m with
  | nil => intro h _; cases h
  | cons p rest ih =>
      intro hm hnd
      obtain ⟨k', v'⟩ := p
      simp only [List.map_cons, List.nodup_cons] at hnd
      rcases List.mem_cons.mp hm with heq | hrest
      · cases heq
        simp [mapIndex]
      · have hk' : ¬ k' = k := by
          intro he
          subst he
          exact hnd.1 (List.mem_map.mpr ⟨(k', v), hrest, rfl⟩)
        simp [mapIndex, hk', ih hrest hnd.2]

/-- Two maps holding the same pairs (in any order, keys distinct) index
to the same values everywhere. -/
theorem mapIndex_perm (z : β) {m1 m2 : List (Int × β)}
    (hperm : m1.Perm m2) (hnd : (m1.map Prod.fst).Nodup) (k : Int) :
    mapIndex z m1 k = mapIndex z m2 k := by
  have hnd2 : (m2.map Prod.fst).Nodup := ((hperm.map Prod.fst).nodup_iff).mp hnd
  by_cases hk : k ∈ m1.map Prod.fst
  · obtain ⟨⟨k0, v⟩, hmem, hfst⟩ := List.mem_map.mp hk
    have hfst' : k0 = k := hfst
    subst hfst'
    rw [mapIndex_eq_of_mem z hmem hnd,
      mapIndex_eq_of_mem z (hperm.mem_iff.mp hmem) hnd2]
  · rw [mapIndex_eq_default z hk,
      mapIndex_eq_default z (fun hc => hk ((hperm.map Prod.fst).mem_iff.mpr hc))]

/-- The lock-step walk over identical key sequences returns zero when
the two maps agree at every key. -/
theorem mapWalk_self_zero (cmpK : Int → Int → Int) (cmpV : β → β → Int)
    (z : β) (m1 m2 : List (Int × β))
    (hvals : ∀ k, cmpV (mapIndex z m1 k) (mapIndex z m2 k) = 0) :
    ∀ ks, mapWalk cmpK cmpV z m1 m2 ks ks = 0 := by
  intro ks
  induction ks with
  | nil => rfl
  | cons k rest ih => simp [mapWalk, hvals k, ih]

/-! ## Claims about the generated code's semantics -/

/-- C3: for every struct type, the generated comparator compares the
operands field by field in declaration order and returns the first
non-zero field comparison; when every field comparison is zero it
returns 0. -/
theorem compareStruct_first_nonzero_wins (a b : σ) :
    (∀ (pre : List (σ → σ → Int)) (f : σ → σ → Int) (post : List (σ → σ → Int)),
      (∀ c ∈ pre, c a b = 0) → f a b ≠ 0 →
      compareStruct (pre ++ f :: post) a b = f a b) ∧
    (∀ cmps : List (σ → σ → Int), (∀ c ∈ cmps, c a b = 0) →
      compareStruct cmps a b = 0) := by
  constructor
  · intro pre f post hpre hf
    induction pre with
    | nil => simp [compareStruct, firstNonZero, hf]
    | cons c0 rest ih =>
        have h0 : c0 a b = 0 := hpre c0 (by simp)
        have hrest : ∀ c ∈ rest, c a b = 0 := fun c hc => hpre c (by simp [hc])
        simpa [compareStruct, firstNonZero, h0] using ih hrest
  · intro cmps h
    induction cmps with
    | nil => rfl
    | cons c0 rest ih =>
        have h0 : c0 a b = 0 := h c0 (by simp)
        have hrest : ∀ c ∈ rest, c a b = 0 := fun c hc => h c (by simp [hc])
        simpa [compareStruct, firstNonZero, h0] using ih hrest

/-- Witness for C3, spec scenario 1: structs modelled as `(A, B)` pairs
with `A : int`, `B : string`; values `(1, "x")` and `(1, "y")` (bytes
120 and 121): `A` ties, `B` decides, result negative; and the all-equal
struct compares 0. -/
theorem compareStruct_first_nonzero_wins_witness :
    compareStruct
      [fun p q => intCompare p.1 q.1, fun p q => stringsCompare p.2 q.2]
      (((1 : Int), ([120] : List Nat))) ((1 : Int), ([121] : List Nat)) = -1 ∧
    compareStruct [fun p q => intCompare p.1 q.1]
      (((1 : Int), ([120] : List Nat))) ((1 : Int), ([120] : List Nat)) = 0 := by
  constructor
  · have h := (compareStruct_first_nonzero_wins (σ := Int × List Nat)
      (1, [120]) (1, [121])).1 [fun p q => intCompare p.1 q.1]
      (fun p q => stringsCompare p.2 q.2) []
      (by intro c hc; simp at hc; subst hc; decide)
      (by decide)
    exact h.trans (by decide)
  · exact (compareStruct_first_nonzero_wins (σ := Int × List Nat)
      (1, [120]) (1, [120])).2 _ (by intro c hc; simp at hc; subst hc; decide)

/-- C4: for pointer, slice and map kinds the generated comparator
returns 0 on two nils, -1 when only the first operand is nil, and 1 when
only the second is; for two non-nil pointers it delegates to the element
type's comparator on the dereferenced values. -/
theorem compare_nil_ordering (cmpE cmpS : α → α → Int)
    (cmpK : Int → Int → Int) (cmpV : β → β → Int) (z : β) :
    comparePtr cmpE none none = 0 ∧
    (∀ x, comparePtr cmpE none (some x) = -1) ∧
    (∀ x, comparePtr cmpE (some x) none = 1) ∧
    (∀ x y, comparePtr cmpE (some x) (some y) = cmpE x y) ∧
    compareSlice cmpS none none = 0 ∧
    (∀ xs, compareSlice cmpS none (some xs) = -1) ∧
    (∀ xs, compareSlice cmpS (some xs) none = 1) ∧
    compareMap cmpK cmpV z none none = 0 ∧
    (∀ m, compareMap cmpK cmpV z none (some m) = -1) ∧
    (∀ m, compareMap cmpK cmpV z (some m) none = 1) :=
  ⟨rfl, fun _ => rfl, fun _ => rfl, fun _ _ => rfl, rfl, fun _ => rfl,
   fun _ => rfl, rfl, fun _ => rfl, fun _ => rfl⟩

/-- C5: for slices, arrays and maps with non-nil operands of differing
lengths, the generated comparator returns -1 when the first is shorter
and 1 otherwise, regardless of element content; with equal lengths,
slices and arrays are compared element-wise left to right, the first
non-zero element comparison winning. -/
theorem compare_length_precedence (cmp : α → α → Int)
    (cmpK : Int → Int → Int) (cmpV : β → β → Int) (z : β)
    (xs ys : List α) (m1 m2 : List (Int × β)) :
    (xs.length ≠ ys.length →
      compareSlice cmp (some xs) (some ys) =
        (if xs.length < ys.length then -1 else 1) ∧
      compareArray cmp xs ys = (if xs.length < ys.length then -1 else 1)) ∧
    (m1.length ≠ m2.length →
      compareMap cmpK cmpV z (some m1) (some m2) =
        (if m1.length < m2.length then -1 else 1)) ∧
    (xs.length = ys.length →
      compareSlice cmp (some xs) (some ys) =
        firstNonZero (List.zipWith cmp xs ys) ∧
      compareArray cmp xs ys = firstNonZero (List.zipWith cmp xs ys)) := by
  refine ⟨fun h => ⟨?_, ?_⟩, fun h => ?_, fun h => ⟨?_, ?_⟩⟩
  · simp [compareSlice, h]
  · simp [compareArray, h]
  · simp [compareMap, h]
  · simp [compareSlice, h, compareLoop_eq_firstNonZero]
  · simp [compareArray, h, compareLoop_eq_firstNonZero]

/-- Witness for C5, spec scenario 2: `[1,3,2]` vs `[1,3,2,4]` compares
negative by length alone, for slices, arrays and maps of differing
cardinality; and an equal-length slice pair reduces to the element-wise
first-non-zero comparison. -/
theorem compare_length_precedence_witness :
    compareSlice intCompare (some [1, 3, 2]) (some [1, 3, 2, 4]) = -1 ∧
    compareArray intCompare [1, 3, 2] [1, 3, 2, 4] = -1 ∧
    compareMap intCompare intCompare 0 (some [(1, 5)]) (some [(1, 5), (2, 6)]) = -1 ∧
    compareSlice intCompare (some [1, 2]) (some [1, 3]) =
      firstNonZero [intCompare 1 1, intCompare 2 3] := by
  have h1 := compare_length_precedence intCompare intCompare intCompare (0 : Int)
    [1, 3, 2] [1, 3, 2, 4] [(1, 5)] [(1, 5), (2, 6)]
  refine ⟨?_, ?_, ?_, ?_⟩
  · exact ((h1.1 (by decide)).1).trans (by decide)
  · exact ((h1.1 (by decide)).2).trans (by decide)
  · exact (h1.2.1 (by decide)).trans (by decide)
  · exact ((compare_length_precedence intCompare intCompare intCompare (0 : Int)
      [1, 2] [1, 3] [] []).2.2 rfl).1

/-- C1: for equal-sized non-nil map operands the generated comparator
walks the two sorted key sequences in lock-step (value comparison on
equal keys, key comparison on differing keys, first non-zero wins, 0 at
the end); consequently a map compares 0 against an equal-content copy
built in a different insertion order. -/
theorem compareMap_lockstep_deterministic (cmpK : Int → Int → Int)
    (cmpV : β → β → Int) (z : β) :
    (∀ m1 m2 : List (Int × β), m1.length = m2.length →
      compareMap cmpK cmpV z (some m1) (some m2) =
        mapWalk cmpK cmpV z m1 m2 (sortedKeys m1) (sortedKeys m2)) ∧
    (∀ m1 m2 : List (Int × β), (m1.map Prod.fst).Nodup → m1.Perm m2 →
      (∀ v, cmpV v v = 0) →
      compareMap cmpK cmpV z (some m1) (some m2) = 0) := by
  constructor
  · intro m1 m2 hlen
    simp [compareMap, hlen]
  · intro m1 m2 hnd hperm hcv
    have hlen := hperm.length_eq
    have hkperm : (m1.map Prod.fst).Perm (m2.map Prod.fst) := hperm.map Prod.fst
    have hkeys : sortedKeys m1 = sortedKeys m2 :=
      List.eq_of_perm_of_sorted
        (((List.perm_insertionSort _ _).trans hkperm).trans
          (List.perm_insertionSort _ _).symm)
        (List.sorted_insertionSort _ _) (List.sorted_insertionSort _ _)
    have hvals : ∀ k, cmpV (mapIndex z m1 k) (mapIndex z m2 k) = 0 := by
      intro k
      rw [mapIndex_perm z hperm hnd k]
      exact hcv _
    simp only [compareMap, hlen, ne_eq, not_true_eq_false, if_false]
    rw [hkeys]
    exact mapWalk_self_zero cmpK cmpV z m1 m2 hvals _

/-- Witness for C1, spec scenario 3: the maps `{1:"a", 2:"b"}` and
`{2:"b", 1:"a"}` (same content, different construction order, string
values as byte lists) compare 0. -/
theorem compareMap_lockstep_deterministic_witness :
    compareMap intCompare stringsCompare []
      (some [((1 : Int), ([97] : List Nat)), (2, [98])])
      (some [(2, [98]), (1, [97])]) = 0 :=
  (compareMap_lockstep_deterministic intCompare stringsCompare []).2
    [(1, [97]), (2, [98])] [(2, [98]), (1, [97])]
    (by decide) (by decide) stringsCompare_self

/-! ## Claims about the generator -/

/-- C9: a field of named type, or of pointer-to-named type, that has its
own comparison method is dispatched to that method directly
(`p.Compare(q)` for a pointer field, `x.Compare(&y)` for a value field),
not to a generated comparator function; the registry is returned
unchanged, so nothing is scheduled for generation. -/
theorem field_named_delegates_to_method (r : Registry) (thisF thatF n : String) :
    field r thisF thatF (.ptr (.named n true)) =
      .ok (r, thisF ++ ".Compare(" ++ thatF ++ ")") ∧
    field r thisF thatF (.named n true) =
      .ok (r, thisF ++ ".Compare(&" ++ thatF ++ ")") :=
  ⟨rfl, rfl⟩

/-- C7: a type whose underlying kind the dispatcher cannot handle
(channel, function, tuple, interface) fails synthesis with an error
naming the offending type, and a field of such a kind (or of anonymous
struct shape) fails the per-field dispatch with an error naming the
offending type — generation-time errors, not emitted defaults. -/
theorem unsupported_kind_fails (env : List (String × GoType)) (s : GenM)
    (typ t : GoType) (fs : GoFields) (r : Registry) (a b : String) :
    ((underlying env typ = .chanT t ∨ underlying env typ = .signature ∨
      underlying env typ = .tuple ∨ underlying env typ = .iface) →
      (genFuncFor env s typ).2 =
        some ("unsupported compare type: " ++ typeName typ)) ∧
    (field r a b (.chanT t) =
        .error ("unsupported field type " ++ typeName (.chanT t)) ∧
      field r a b .signature =
        .error ("unsupported field type " ++ typeName .signature) ∧
      field r a b .tuple = .error ("unsupported field type " ++ typeName .tuple) ∧
      field r a b .iface = .error ("unsupported field type " ++ typeName .iface) ∧
      field r a b (.structT fs) =
        .error ("unsupported field type " ++ typeName (.structT fs))) := by
  constructor
  · intro h
    rcases h with h | h | h | h <;> simp [genFuncFor, h]
  · exact ⟨rfl, rfl, rfl, rfl, rfl⟩

/-- Witness for C7: a channel type and a function-typed field fail with
errors naming them. -/
theorem unsupported_kind_fails_witness :
    (genFuncFor [] ⟨⟨"deriveCompare", []⟩, []⟩ (.chanT (.basic .intK))).2 =
      some "unsupported compare type: chan int" ∧
    field ⟨"deriveCompare", []⟩ "this.F" "that.F" .signature =
      .error "unsupported field type func()" := by
  have h := unsupported_kind_fails [] ⟨⟨"deriveCompare", []⟩, []⟩
    (.chanT (.basic .intK)) (.basic .intK) .nil ⟨"deriveCompare", []⟩
    "this.F" "that.F"
  refine ⟨(h.1 (Or.inl rfl)).trans ?_, h.2.2.1.trans ?_⟩
  · exact congrArg some (by decide)
  · exact congrArg Except.error (by decide)

/-- C10: a call whose callee is not a simple identifier, or whose callee
name does not start with the configured name start, is silently skipped
by the constructor loop: no arity or type-identity validation happens
and nothing is registered for it. -/
theorem newCompareLoop_skips_nonmatching (pfx : String) (r : Registry)
    (c : CallExpr) (cs : List CallExpr)
    (h : c.fn = none ∨ ∃ name, c.fn = some name ∧ hasPrefixStr pfx name = false) :
    newCompareLoop pfx r (c :: cs) = newCompareLoop pfx r cs := by
  rcases h with h | ⟨name, hn, hp⟩
  · simp [newCompareLoop, h]
  · simp [newCompareLoop, hn, hp]

/-- Witness for C10: a call with a non-matching callee name and three
arguments of mismatched types is skipped without error (the constructor
returns the registry untouched). -/
theorem newCompareLoop_skips_nonmatching_witness :
    newCompareLoop "deriveCompare" ⟨"deriveCompare", []⟩
      [⟨some "otherCall", [.basic .intK, .basic .boolK, .basic .intK]⟩] =
      .ok ⟨"deriveCompare", []⟩ :=
  (newCompareLoop_skips_nonmatching "deriveCompare" ⟨"deriveCompare", []⟩
    ⟨some "otherCall", [.basic .intK, .basic .boolK, .basic .intK]⟩ []
    (Or.inr ⟨"otherCall", rfl, by decide⟩)).trans rfl

/-- The constructor loop splits over list append: the first part is
processed, and processing continues from its resulting registry (or the
first error wins). -/
theorem newCompareLoop_append (pfx : String) (l1 : List CallExpr) :
    ∀ (r : Registry) (l2 : List CallExpr),
      newCompareLoop pfx r (l1 ++ l2) =
        match newCompareLoop pfx r l1 with
        | .ok r1 => newCompareLoop pfx r1 l2
        | .error e => .error e := by
  induction l1 with
  | nil => intro r l2; rfl
  | cons c cs ih =>
      intro r l2
      rcases hfn : c.fn with _ | name
      · simp only [List.cons_append, newCompareLoop, hfn]
        exact ih r l2
      · by_cases hp : hasPrefixStr pfx name = true
        · rcases harg : c.args with _ | ⟨t0, _ | ⟨t1, _ | ⟨t2, rest⟩⟩⟩
          · simp [newCompareLoop, hfn, hp, harg]
          · simp [newCompareLoop, hfn, hp, harg]
          · by_cases ht : t0 = t1
            · subst ht
              rcases hsf : setFuncName r t0 name with e | rnext
              · simp [newCompareLoop, hfn, hp, harg, hsf]
              · simp only [List.cons_append, newCompareLoop, hfn, hp, harg, hsf,
                  if_true, eq_self_iff_true]
                exact ih rnext l2
            · simp [newCompareLoop, hfn, hp, harg, ht]
          · simp [newCompareLoop, hfn, hp, harg]
        · have hp' : hasPrefixStr pfx name = false := by simpa using hp
          simp only [List.cons_append, newCompareLoop, hfn, hp',
            Bool.false_eq_true, if_false]
          exact ih r l2

/-- C6: a call site whose callee name starts with the configured name
start but which does not have exactly two arguments, or whose two
arguments' types are not identical, makes construction fail with an
error citing the callee name; the whole run is then rejected with no
output produced. -/
theorem newCompare_validates (env : List (String × GoType)) (fuel : Nat)
    (pfx name : String) (pre post : List CallExpr) (c : CallExpr) (r1 : Registry)
    (hpre : newCompareLoop pfx ⟨pfx, []⟩ pre = .ok r1)
    (hfn : c.fn = some name) (hp : hasPrefixStr pfx name = true) :
    ((¬ ∃ t0 t1 : GoType, c.args = [t0, t1]) →
      newCompare pfx (pre ++ c :: post) =
        .error (name ++ " does not have two arguments\n") ∧
      runCompare env fuel pfx (pre ++ c :: post) = some none) ∧
    (∀ t0 t1 : GoType, c.args = [t0, t1] → t0 ≠ t1 →
      newCompare pfx (pre ++ c :: post) =
        .error (name ++ " has two arguments, but they are of different types "
          ++ typeName t0 ++ " != " ++ typeName t1 ++ "\n") ∧
      runCompare env fuel pfx (pre ++ c :: post) = some none) := by
  have key : ∀ e : String, newCompareLoop pfx r1 (c :: post) = .error e →
      newCompare pfx (pre ++ c :: post) = .error e ∧
      runCompare env fuel pfx (pre ++ c :: post) = some none := by
    intro e he
    have h1 : newCompare pfx (pre ++ c :: post) = .error e := by
      unfold newCompare
      rw [newCompareLoop_append pfx pre ⟨pfx, []⟩ (c :: post), hpre]
      exact he
    refine ⟨h1, ?_⟩
    unfold runCompare
    rw [h1]
  constructor
  · intro hno
    apply key
    rcases harg : c.args with _ | ⟨t0, _ | ⟨t1, _ | ⟨t2, rest⟩⟩⟩
    · simp [newCompareLoop, hfn, hp, harg]
    · simp [newCompareLoop, hfn, hp, harg]
    · exact absurd ⟨t0, t1, harg⟩ hno
    · simp [newCompareLoop, hfn, hp, harg]
  · intro t0 t1 harg hne
    apply key
    simp [newCompareLoop, hfn, hp, harg, hne]

/-- Witness for C6, spec scenario 6: a call with mismatched argument
types fails construction citing the callee, the run produces no output,
and a one-argument call fails citing the callee. -/
theorem newCompare_validates_witness :
    newCompare "deriveCompare"
      [⟨some "deriveCompareFoo", [.basic .intK, .basic .stringK]⟩] =
      .error "deriveCompareFoo has two arguments, but they are of different types int != string\n" ∧
    runCompare [] 1 "deriveCompare"
      [⟨some "deriveCompareFoo", [.basic .intK, .basic .stringK]⟩] = some none ∧
    newCompare "deriveCompare" [⟨some "deriveCompareBar", [.basic .intK]⟩] =
      .error "deriveCompareBar does not have two arguments\n" := by
  have h2 := (newCompare_validates [] 1 "deriveCompare" "deriveCompareFoo" [] []
    ⟨some "deriveCompareFoo", [.basic .intK, .basic .stringK]⟩
    ⟨"deriveCompare", []⟩ rfl rfl (by decide)).2
    (.basic .intK) (.basic .stringK) rfl (by decide)
  have h1 := (newCompare_validates [] 1 "deriveCompare" "deriveCompareBar" [] []
    ⟨some "deriveCompareBar", [.basic .intK]⟩
    ⟨"deriveCompare", []⟩ rfl rfl (by decide)).1
    (by rintro ⟨t0, t1, hh⟩; simp at hh)
  exact ⟨h2.1.trans (congrArg Except.error (by decide)), h2.2,
    h1.1.trans (congrArg Except.error (by decide))⟩

/-- C8: the run is all-or-nothing: a construction-time error yields no
output; a generation-time error yields no output even though the printer
state holds the partially emitted text; only a completed run emits, and
then it emits the full accumulated text of every generated function. -/
theorem run_all_or_nothing (env : List (String × GoType)) (fuel : Nat)
    (pfx : String) (calls : List CallExpr) :
    (∀ e, newCompare pfx calls = .error e →
      runCompare env fuel pfx calls = some none) ∧
    (∀ (r : Registry) (s1 : GenM) (e : String), newCompare pfx calls = .ok r →
      driverLoop env fuel ⟨r, []⟩ = some (s1, some e) →
      runCompare env fuel pfx calls = some none) ∧
    (∀ (r : Registry) (s1 : GenM), newCompare pfx calls = .ok r →
      driverLoop env fuel ⟨r, []⟩ = some (s1, none) →
      runCompare env fuel pfx calls = some (some s1.out)) := by
  refine ⟨fun e he => ?_, fun r s1 e h1 h2 => ?_, fun r s1 h1 h2 => ?_⟩
  · simp [runCompare, he]
  · simp [runCompare, h1, h2]
  · simp [runCompare, h1, h2]

/-- Witness for C8: a failing construction produces no output, and a
run with no pending work completes emitting exactly its (empty)
accumulated text. -/
theorem run_all_or_nothing_witness :
    runCompare [] 1 "deriveCompare" [⟨some "deriveCompareBad", []⟩] = some none ∧
    runCompare [] 1 "deriveCompare" [] = some (some []) := by
  constructor
  · exact (run_all_or_nothing [] 1 "deriveCompare"
      [⟨some "deriveCompareBad", []⟩]).1
      "deriveCompareBad does not have two arguments\n" (by rfl)
  · exact (run_all_or_nothing [] 1 "deriveCompare" []).2.2 ⟨"deriveCompare", []⟩
      ⟨⟨"deriveCompare", []⟩, []⟩ (by rfl) (by rfl)

/-- C2 counterexample: the generation run over the self-referential
linked-list node terminates and emits exactly `nodeLines`; the recursive
`Next` reference is emitted as the method call
`this.Next.Compare(that.Next)` (src/compare.go line 307), and the only
emitted line in which the node's generated function name
`deriveCompareNode` occurs at all is that function's own header — so no
emitted line is a call to the type's own generated function, contrary to
the claim. -/
theorem node_recursive_reference_is_method_call :
    runCompare nodeEnv 5 "deriveCompare" nodeCalls = some (some nodeLines) ∧
    "if c := this.Next.Compare(that.Next); c != 0 \x7b" ∈ nodeLines ∧
    nodeLines.filter (fun l => decide ("deriveCompareNode".data <:+: l.data)) =
      ["func deriveCompareNode(this, that Node) int \x7b"] := by
  refine ⟨by decide, by decide, by decide⟩

/-- C2 amended: requesting the function name of an already registered
type returns the identical name and leaves the registry unchanged, so
synthesis is never re-entered for it; the generation run over the
self-referential linked-list node terminates, emitting exactly one
function body (one `func` header) per registered type; the recursive
`Next` reference in the node's body is emitted as a delegation to the
field type's own `Compare` method, not as a call to the generated
function. -/
theorem memoized_names_node_run_terminates :
    (∀ (r : Registry) (t : GoType) (e : Entry),
      lookupType r.entries t = some e → getFuncName r t = (r, e.name)) ∧
    runCompare nodeEnv 5 "deriveCompare" nodeCalls = some (some nodeLines) ∧
    nodeLines.filter (fun l => "func ".data.isPrefixOf l.data) =
      ["func deriveCompareNode(this, that Node) int \x7b",
       "func deriveCompare_int(this, that int) int \x7b"] ∧
    "if c := this.Next.Compare(that.Next); c != 0 \x7b" ∈ nodeLines := by
  refine ⟨?_, by decide, by decide, by decide⟩
  intro r t e h
  unfold getFuncName
  rw [h]

/-- Witness for C2 (amended): a registry already holding the `Node`
entry in Generating state returns the identical name on a repeated
request, with the registry unchanged. -/
theorem memoized_names_node_run_terminates_witness :
    getFuncName
      ⟨"deriveCompare", [⟨.named "Node" false, "deriveCompareNode", .generating⟩]⟩
      (.named "Node" false) =
      (⟨"deriveCompare", [⟨.named "Node" false, "deriveCompareNode", .generating⟩]⟩,
       "deriveCompareNode") :=
  memoized_names_node_run_terminates.1
    ⟨"deriveCompare", [⟨.named "Node" false, "deriveCompareNode", .generating⟩]⟩
    (.named "Node" false)
    ⟨.named "Node" false, "deriveCompareNode", .generating⟩ rfl

end GoDerive
